import Mathlib

/-!
Shallow embedding of the note sharing, collaboration and versioning
subsystem of the notes backend: the Note schema with its pre-save hook and
instance methods (src/src/models/Note.js), the share/collaborator
controller (the shareController source), the note CRUD controller
(updateNote, deleteNote, restoreNote, permanentDeleteNote), the
collaboration-permission middleware (src/src/middleware/errorHandler.js)
and the string helpers they use (generateShareId, stripHtml,
extractKeywords from the utils helpers module).

Modelling conventions:
  - object ids and user ids are strings; timestamps are integers
    (milliseconds since the epoch);
  - ODM document state is explicit: each Note carries the modified-paths
    flags for the title and content paths and the newness flag, which the
    hooks consult through isModified and isNew; a save clears them;
  - randomness (the uuid v4 generator) is passed in as explicit bytes;
  - fields of the schema never touched by the verified subsystem
    (reminder, attachments, the ODM timestamps) are omitted, as are the
    population of references and schema validation.
-/

namespace NotesApp

/-- Character class of the regex whitespace escape as used by the source's
split and replace calls (ASCII whitespace forms). -/
def isJsSpace (c : Char) : Bool :=
  c == ' ' || c == '\t' || c == '\n' || c == '\r' || c == '\x0b' || c == '\x0c'

/-- Character class of the regex word escape: ASCII letters, digits and
underscore. -/
def isWordChar (c : Char) : Bool :=
  c.isAlphanum || c == '_'

/-- One global-replace pass of the tag regex used by stripHtml in the utils
helpers: each match runs from a left angle bracket through the next right
angle bracket; a left angle bracket with no later right angle bracket
matches nothing and the remainder is kept verbatim. The fuel argument is
an upper bound on the number of steps (the list length suffices, since
every step consumes at least one character). -/
def stripHtmlGo : Nat → List Char → List Char
  | 0, l => l
  | _ + 1, [] => []
  | fuel + 1, c :: rest =>
    if c == '<' && rest.contains '>' then
      stripHtmlGo fuel ((rest.dropWhile (fun d => d != '>')).drop 1)
    else
      c :: stripHtmlGo fuel rest

/-- Helper stripHtml from the utils module: removes every tag-shaped span
from the string. -/
def stripHtml (s : String) : String :=
  String.mk (stripHtmlGo s.toList.length s.toList)

/-- Splitting on runs of whitespace and dropping empty tokens, as the
source's split on a whitespace-run regex followed by a nonempty filter.
The accumulator holds the current token reversed. -/
def wordsOfAux : List Char → List Char → List String
  | [], acc => if acc.isEmpty then [] else [String.mk acc.reverse]
  | c :: rest, acc =>
    if isJsSpace c then
      if acc.isEmpty then wordsOfAux rest []
      else String.mk acc.reverse :: wordsOfAux rest []
    else
      wordsOfAux rest (c :: acc)

/-- Tokens of a character list: the maximal runs of non-whitespace. -/
def wordsOf (l : List Char) : List String := wordsOfAux l []

/-- Order-preserving duplicate removal, as the source's spread of a Set:
keeps the first occurrence of each element. -/
def dedupAux : List String → List String → List String
  | [], _ => []
  | x :: rest, seen =>
    if seen.contains x then dedupAux rest seen else x :: dedupAux rest (x :: seen)

/-- Duplicate removal keeping first occurrences. -/
def dedupKeep (l : List String) : List String := dedupAux l []

/-- Helper extractKeywords from the utils module: on falsy text the empty
list; otherwise lowercase, replace every character that is neither a word
character nor whitespace with a space, split on whitespace runs, keep
tokens longer than two characters, and remove duplicates. -/
def extractKeywords (text : String) : List String :=
  if text = "" then []
  else
    let cleaned := text.toList.map (fun c =>
      let d := c.toLower
      if isWordChar d || isJsSpace d then d else ' ')
    dedupKeep ((wordsOf cleaned).filter (fun w => w.length > 2))

/-- Excerpt derivation from the pre-save hook: the first 200 characters of
the plain text, with an ellipsis appended when the text is longer. -/
def computeExcerpt (plain : String) : String :=
  if plain.length > 200 then String.mk (plain.toList.take 200) ++ "..." else plain

/-- Lower hex digit for a value below 16. -/
def hexDigit (n : Nat) : Char :=
  if n < 10 then Char.ofNat (48 + n) else Char.ofNat (87 + n)

/-- Two-digit hex rendering of a byte. -/
def byteHex (n : Nat) : String :=
  String.mk [hexDigit ((n / 16) % 16), hexDigit (n % 16)]

/-- Rendering step of the uuid package v4 generator backing generateShareId
in the utils helpers: sixteen random bytes printed in the fixed 8-4-4-4-12
hex layout, with the version nibble forced to 4 and the variant bits forced
to the 10 pattern. The random bytes are passed explicitly. -/
def uuidv4 (r : List Nat) : String :=
  let b := fun i => (r.getD i 0) % 256
  let b6 := (b 6) % 16 + 64
  let b8 := (b 8) % 64 + 128
  byteHex (b 0) ++ byteHex (b 1) ++ byteHex (b 2) ++ byteHex (b 3) ++ "-" ++
  byteHex (b 4) ++ byteHex (b 5) ++ "-" ++ byteHex b6 ++ byteHex (b 7) ++ "-" ++
  byteHex b8 ++ byteHex (b 9) ++ "-" ++ byteHex (b 10) ++ byteHex (b 11) ++
  byteHex (b 12) ++ byteHex (b 13) ++ byteHex (b 14) ++ byteHex (b 15)

/-- Helper generateShareId from the utils module: a fresh uuid v4. -/
def generateShareId (r : List Nat) : String := uuidv4 r

/-- Entry of the previousVersions array of the Note schema. -/
structure VersionSnapshot where
  version : Nat
  title : String
  content : String
  modifiedAt : Int
  modifiedBy : String
  deriving Repr, DecidableEq

/-- Entry of the collaborators array of the Note schema. -/
structure Collaborator where
  user : String
  permission : String
  addedAt : Int
  deriving Repr, DecidableEq

/-- Embedded shareSettings sub-object of the Note schema, with the schema
defaults. An absent shareId (the sparse path unset) is the none value. -/
structure ShareSettings where
  isShared : Bool := false
  shareId : Option String := none
  sharePermissions : String := "view"
  shareExpiresAt : Option Int := none
  allowComments : Bool := false
  deriving Repr, DecidableEq

/-- Note document (src/src/models/Note.js), restricted to the fields the
verified subsystem reads or writes, with the schema defaults. The three
trailing fields are the ODM document state: the modified-paths flags for
the title and content paths (isModified) and the newness flag (isNew). -/
structure Note where
  id : String := ""
  title : String
  content : String
  excerpt : String := ""
  contentType : String := "text"
  wordCount : Nat := 0
  readingTime : Nat := 0
  author : String
  category : Option String := none
  tags : List String := []
  status : String := "draft"
  visibility : String := "private"
  shareSettings : ShareSettings := {}
  isPinned : Bool := false
  isFavorite : Bool := false
  priority : String := "medium"
  isDeleted : Bool := false
  deletedAt : Option Int := none
  version : Nat := 1
  previousVersions : List VersionSnapshot := []
  searchKeywords : List String := []
  collaborators : List Collaborator := []
  viewCount : Nat := 0
  lastViewedAt : Option Int := none
  editCount : Nat := 0
  modifiedTitle : Bool := false
  modifiedContent : Bool := false
  isNew : Bool := false
  deriving Repr, DecidableEq

/-- Pre-save middleware of the note schema (Note.js lines 228 to 258):
derives the excerpt when it is falsy and content is truthy, recomputes the
word count and reading time whenever content is truthy, regenerates the
search keywords when the title or content path is modified, and increments
version and editCount when the content path is modified on a non-new
document. -/
def preSave (n : Note) : Note :=
  let plain := stripHtml n.content
  let wc := (wordsOf plain.toList).length
  { n with
    excerpt :=
      if n.excerpt == "" && n.content != "" then computeExcerpt plain else n.excerpt,
    wordCount := if n.content != "" then wc else n.wordCount,
    readingTime := if n.content != "" then (wc + 199) / 200 else n.readingTime,
    searchKeywords :=
      if n.modifiedTitle || n.modifiedContent then
        dedupKeep (extractKeywords n.title ++ extractKeywords plain)
      else n.searchKeywords,
    version := if n.modifiedContent && !n.isNew then n.version + 1 else n.version,
    editCount := if n.modifiedContent && !n.isNew then n.editCount + 1 else n.editCount }

/-- Persisting a document: runs the pre-save hook, then clears the
modified-paths state and the newness flag as the ODM does after a
successful save. Schema validation (required nonempty title and content,
enum membership) is not modelled; no verified property exercises an update
that fails validation. -/
def save (n : Note) : Note :=
  let m := preSave n
  { m with modifiedTitle := false, modifiedContent := false, isNew := false }

/-- Assignment to the title path: the ODM marks a path modified only when
the assigned value differs from the current one. -/
def setTitle (n : Note) (t : String) : Note :=
  if t = n.title then n else { n with title := t, modifiedTitle := true }

/-- Assignment to the content path: the ODM marks a path modified only when
the assigned value differs from the current one. -/
def setContent (n : Note) (c : String) : Note :=
  if c = n.content then n else { n with content := c, modifiedContent := true }

/-- Instance method createShareLink (Note.js 343 to 353): sets the shared
flag, a freshly generated token and the permissions, sets the expiry only
when expiresIn is truthy (present and nonzero), and saves. The generated
token is passed explicitly. -/
def Note.createShareLink (n : Note) (token : String) (permissions : String)
    (expiresIn : Option Int) (now : Int) : Note :=
  let ss := { n.shareSettings with
    isShared := true, shareId := some token, sharePermissions := permissions }
  let ss := match expiresIn with
    | some ms => if ms != 0 then { ss with shareExpiresAt := some (now + ms) } else ss
    | none => ss
  save { n with shareSettings := ss }

/-- Instance method revokeShareLink (Note.js 356 to 362): clears the shared
flag, the token and the expiry, and saves. -/
def Note.revokeShareLink (n : Note) : Note :=
  save { n with shareSettings := { n.shareSettings with
    isShared := false, shareId := none, shareExpiresAt := none } }

/-- In-place permission update of the first collaborator entry for the
given user, as the source's mutation of the entry returned by find. -/
def upgradeFirst (uid perm : String) : List Collaborator → List Collaborator
  | [] => []
  | c :: rest =>
    if c.user = uid then { c with permission := perm } :: rest
    else c :: upgradeFirst uid perm rest

/-- Instance method addCollaborator (Note.js 365 to 380): when an entry for
the user exists its permission is updated in place, otherwise an entry with
the addedAt default is appended; then saves. -/
def Note.addCollaborator (n : Note) (userId permission : String) (now : Int) : Note :=
  if (n.collaborators.find? (fun c => c.user == userId)).isSome then
    save { n with collaborators := upgradeFirst userId permission n.collaborators }
  else
    save { n with collaborators :=
      n.collaborators ++ [{ user := userId, permission := permission, addedAt := now }] }

/-- Instance method removeCollaborator (Note.js 383 to 389): keeps the
entries whose user differs and saves. -/
def Note.removeCollaborator (n : Note) (userId : String) : Note :=
  save { n with collaborators := n.collaborators.filter (fun c => c.user != userId) }

/-- Instance method softDelete (Note.js 392 to 396). -/
def Note.softDelete (n : Note) (now : Int) : Note :=
  save { n with isDeleted := true, deletedAt := some now }

/-- Instance method restore (Note.js 399 to 403). -/
def Note.restore (n : Note) : Note :=
  save { n with isDeleted := false, deletedAt := none }

/-- Instance method createVersionBackup (Note.js 406 to 421): guarded by
the document's modified state on the content path; appends the current
head fields (with modifiedBy the author) and keeps only the last 10
entries (slice of the last ten). It does not save. -/
def Note.createVersionBackup (n : Note) (now : Int) : Note :=
  if n.modifiedContent then
    let snap : VersionSnapshot :=
      { version := n.version, title := n.title, content := n.content,
        modifiedAt := now, modifiedBy := n.author }
    let pv := n.previousVersions ++ [snap]
    let pv := if pv.length > 10 then pv.drop (pv.length - 10) else pv
    { n with previousVersions := pv }
  else n

/-- Instance method incrementViewCount (Note.js 424 to 428). -/
def Note.incrementViewCount (n : Note) (now : Int) : Note :=
  save { n with viewCount := n.viewCount + 1, lastViewedAt := some now }

/-- Static method findByShareId (Note.js 331 to 340): findOne on the token
among currently-shared, non-deleted notes; findOne yields the first match. -/
def findByShareId (db : List Note) (sid : String) : Option Note :=
  db.find? (fun n =>
    n.shareSettings.shareId == some sid && n.shareSettings.isShared && !n.isDeleted)

/-- Operational error of the backend (the AppError class of the error
middleware): a message and an HTTP status code. -/
structure AppError where
  message : String
  statusCode : Nat
  deriving Repr, DecidableEq

deriving instance DecidableEq for Except

/-- User document, restricted to the fields the collaborator controller
reads. -/
structure User where
  id : String
  email : String
  deriving Repr, DecidableEq

/-- Character-wise lowercasing (the toLowerCase call on an email; ASCII,
as stored emails are). -/
def jsToLower (s : String) : String :=
  String.mk (s.toList.map Char.toLower)

/-- Static findByEmail of the User model: findOne on the lowercased email. -/
def findByEmail (users : List User) (email : String) : Option User :=
  users.find? (fun u => u.email == jsToLower email)

/-- Tag document, restricted to the fields the note controller touches. -/
structure Tag where
  id : String
  usageCount : Int
  lastUsedAt : Option Int := none
  deriving Repr, DecidableEq

/-- Update findByIdAndUpdate with a usageCount increment of minus one, as
the note delete path issues per tag reference. Ids are unique in the
store, so the map touches at most one document. -/
def decTagUsage (tags : List Tag) (tagId : String) : List Tag :=
  tags.map (fun t =>
    if t.id = tagId then { t with usageCount := t.usageCount - 1 } else t)

/-- Update findByIdAndUpdate with a usageCount increment of one and a fresh
lastUsedAt, as the note restore path issues per tag reference. -/
def incTagUsage (now : Int) (tags : List Tag) (tagId : String) : List Tag :=
  tags.map (fun t =>
    if t.id = tagId then
      { t with usageCount := t.usageCount + 1, lastUsedAt := some now }
    else t)

/-- Lookup shared by the owner-scoped note routes: findOne on the note id
among the caller's non-deleted notes. -/
def findOwnedNote (db : List Note) (userId noteId : String) : Option Note :=
  db.find? (fun n => n.id == noteId && n.author == userId && !n.isDeleted)

/-- Truthiness check of the expiry guard in getSharedNote: a stored Date is
always truthy, null is falsy, and the comparison asks whether the current
time lies strictly past the expiry. -/
def shareExpired (now : Int) (ss : ShareSettings) : Bool :=
  match ss.shareExpiresAt with
  | some e => decide (e < now)
  | none => false

namespace ShareController

/-- Controller createShareLink (POST /api/notes/:id/share): resolves the
caller-owned, non-deleted note (404 on a miss) and calls the model method.
There is no guard against the note being already shared. The permissions
body field defaults to view; the fresh token is passed explicitly. -/
def createShareLink (db : List Note) (userId noteId : String)
    (permissions : Option String) (expiresIn : Option Int)
    (token : String) (now : Int) : Except AppError Note :=
  match findOwnedNote db userId noteId with
  | none => .error { message := "Note not found", statusCode := 404 }
  | some note => .ok (note.createShareLink token (permissions.getD "view") expiresIn now)

/-- Controller getSharedNote (GET /api/shared/:shareId): resolves the note
by token among currently-shared non-deleted notes (404 on a miss), answers
410 when a stored expiry lies in the past, and otherwise increments the
view counter. The permission-scoped projection built for the response is
not modelled; the updated note is returned. -/
def getSharedNote (db : List Note) (sid : String) (now : Int) :
    Except AppError Note :=
  match findByShareId db sid with
  | none =>
    .error { message := "Shared note not found or link has expired", statusCode := 404 }
  | some note =>
    if shareExpired now note.shareSettings then
      .error { message := "Share link has expired", statusCode := 410 }
    else
      .ok (note.incrementViewCount now)

/-- Request body of updateShareSettings. A none field is absent; for the
expiry the inner option distinguishes an explicit null (clear the expiry)
from a duration. -/
structure ShareSettingsBody where
  permissions : Option String := none
  expiresIn : Option (Option Int) := none
  allowComments : Option Bool := none
  deriving Repr, DecidableEq

/-- Field updates of updateShareSettings: each provided field overwrites
its setting (an explicit null duration clears the expiry, a duration sets
it relative to now); absent fields are untouched. -/
def applyShareSettingsBody (body : ShareSettingsBody) (now : Int)
    (ss0 : ShareSettings) : ShareSettings :=
  let ss := match body.permissions with
    | some p => { ss0 with sharePermissions := p }
    | none => ss0
  let ss := match body.expiresIn with
    | some none => { ss with shareExpiresAt := none }
    | some (some ms) => { ss with shareExpiresAt := some (now + ms) }
    | none => ss
  match body.allowComments with
  | some a => { ss with allowComments := a }
  | none => ss

/-- Controller updateShareSettings (PUT /api/notes/:id/share): resolves the
caller-owned, non-deleted note (404 on a miss), rejects with 400 when the
note is not currently shared, then applies only the provided fields and
saves. -/
def updateShareSettings (db : List Note) (userId noteId : String)
    (body : ShareSettingsBody) (now : Int) : Except AppError Note :=
  match findOwnedNote db userId noteId with
  | none => .error { message := "Note not found", statusCode := 404 }
  | some note =>
    if !note.shareSettings.isShared then
      .error { message := "Note is not currently shared", statusCode := 400 }
    else
      .ok (save { note with
        shareSettings := applyShareSettingsBody body now note.shareSettings })

/-- Controller revokeShareLink (DELETE /api/notes/:id/share): resolves the
caller-owned, non-deleted note (404 on a miss), rejects with 400 when the
note is not currently shared, then calls the model method. -/
def revokeShareLink (db : List Note) (userId noteId : String) :
    Except AppError Note :=
  match findOwnedNote db userId noteId with
  | none => .error { message := "Note not found", statusCode := 404 }
  | some note =>
    if !note.shareSettings.isShared then
      .error { message := "Note is not currently shared", statusCode := 400 }
    else
      .ok note.revokeShareLink

/-- Controller addCollaborator (POST /api/notes/:id/collaborators):
resolves the caller-owned, non-deleted note and the target user by email
(404 on either miss), rejects self-collaboration and an already-present
collaborator with 400, and otherwise calls the model method. The
permission body field defaults to view. -/
def addCollaborator (db : List Note) (users : List User) (userId noteId : String)
    (email : String) (permission : Option String) (now : Int) :
    Except AppError Note :=
  match findOwnedNote db userId noteId with
  | none => .error { message := "Note not found", statusCode := 404 }
  | some note =>
    match findByEmail users email with
    | none => .error { message := "User not found with this email", statusCode := 404 }
    | some collaboratorUser =>
      if collaboratorUser.id == userId then
        .error { message := "Cannot add yourself as a collaborator", statusCode := 400 }
      else if (note.collaborators.find? (fun c => c.user == collaboratorUser.id)).isSome then
        .error { message := "User is already a collaborator on this note", statusCode := 400 }
      else
        .ok (note.addCollaborator collaboratorUser.id (permission.getD "view") now)

/-- Controller updateCollaboratorPermission
(PUT /api/notes/:id/collaborators/:userId): resolves the caller-owned,
non-deleted note (404 on a miss), rejects with 404 when the target is not
a collaborator, otherwise mutates the found entry in place and saves. -/
def updateCollaboratorPermission (db : List Note) (userId noteId targetId : String)
    (permission : String) : Except AppError Note :=
  match findOwnedNote db userId noteId with
  | none => .error { message := "Note not found", statusCode := 404 }
  | some note =>
    if (note.collaborators.find? (fun c => c.user == targetId)).isSome then
      .ok (save { note with collaborators := upgradeFirst targetId permission note.collaborators })
    else
      .error { message := "Collaborator not found", statusCode := 404 }

/-- Controller removeCollaborator
(DELETE /api/notes/:id/collaborators/:userId): resolves the caller-owned,
non-deleted note (404 on a miss), rejects with 404 when the target is not
a collaborator, otherwise calls the model method. -/
def removeCollaborator (db : List Note) (userId noteId targetId : String) :
    Except AppError Note :=
  match findOwnedNote db userId noteId with
  | none => .error { message := "Note not found", statusCode := 404 }
  | some note =>
    if note.collaborators.any (fun c => c.user == targetId) then
      .ok (note.removeCollaborator targetId)
    else
      .error { message := "Collaborator not found", statusCode := 404 }

end ShareController

namespace NoteController

/-- Request body of updateNote (PUT /api/notes/:id). A none field is an
absent field. The category field with its validation, and the tag-store
side effects and validation of a tags update, are omitted: no verified
claim mentions them and they do not touch the note fields the claims
concern. -/
structure UpdateNoteBody where
  title : Option String := none
  content : Option String := none
  contentType : Option String := none
  tags : Option (List String) := none
  status : Option String := none
  visibility : Option String := none
  priority : Option String := none
  isPinned : Option Bool := none
  isFavorite : Option Bool := none
  deriving Repr, DecidableEq

/-- Assignment guarded on field presence, as the source's conditionals on
an undefined body field: absent means no assignment. -/
def applyOpt {α : Type} (o : Option α) (f : Note → α → Note) (n : Note) : Note :=
  match o with
  | some a => f n a
  | none => n

/-- Field assignments of updateNote (the block of one-line conditionals):
title, content, contentType, status, visibility, priority, isPinned,
isFavorite, in source order (innermost first). -/
def updateFields (b : UpdateNoteBody) (n : Note) : Note :=
  applyOpt b.isFavorite (fun m v => { m with isFavorite := v })
   (applyOpt b.isPinned (fun m v => { m with isPinned := v })
    (applyOpt b.priority (fun m v => { m with priority := v })
     (applyOpt b.visibility (fun m v => { m with visibility := v })
      (applyOpt b.status (fun m v => { m with status := v })
       (applyOpt b.contentType (fun m v => { m with contentType := v })
        (applyOpt b.content (fun m v => setContent m v)
         (applyOpt b.title (fun m v => setTitle m v) n)))))))

/-- Controller updateNote (PUT /api/notes/:id), acting on the fetched
caller-owned, non-deleted note: calls createVersionBackup when the body
content is truthy and differs from the stored content, assigns the tags
and then the other provided fields in source order, and saves. -/
def updateNote (body : UpdateNoteBody) (n : Note) (now : Int) : Note :=
  let n1 := match body.content with
    | some c => if c != "" && c != n.content then n.createVersionBackup now else n
    | none => n
  let n2 := applyOpt body.tags (fun m ts => { m with tags := ts }) n1
  save (updateFields body n2)

/-- Controller createNote (POST /api/notes), restricted to the document
construction and save: a new document carries the schema defaults and the
provided fields; on a new document every provided path counts as modified,
and the version bump of the pre-save hook is skipped by its isNew guard. -/
def createNote (id title content author : String) (tags : List String) : Note :=
  save { id := id, title := title, content := content, author := author,
         tags := tags, modifiedTitle := true, modifiedContent := true, isNew := true }

/-- Controller deleteNote (DELETE /api/notes/:id), acting on the fetched
caller-owned, non-deleted note and the tag store: soft-deletes the note,
then decrements usageCount once per tag reference of the note. -/
def deleteNote (n : Note) (tags : List Tag) (now : Int) : Note × List Tag :=
  let m := n.softDelete now
  (m, m.tags.foldl decTagUsage tags)

/-- Controller restoreNote (PUT /api/notes/:id/restore), acting on the
fetched caller-owned, soft-deleted note and the tag store: restores the
note, then increments usageCount and stamps lastUsedAt once per tag
reference of the note. -/
def restoreNote (n : Note) (tags : List Tag) (now : Int) : Note × List Tag :=
  let m := n.restore
  (m, m.tags.foldl (incTagUsage now) tags)

/-- Controller permanentDeleteNote (DELETE /api/notes/:id/permanent):
findOne scoped to the caller's soft-deleted notes, so a miss — including
an existing but active note — yields the 404 error; a hit removes the
document from the store. -/
def permanentDeleteNote (db : List Note) (userId noteId : String) :
    Except AppError (List Note) :=
  match db.find? (fun n => n.id == noteId && n.author == userId && n.isDeleted) with
  | none => .error { message := "Deleted note not found", statusCode := 404 }
  | some note => .ok (db.filter (fun n => n.id != note.id))

end NoteController

/-- Permission-level table of the collaboration middleware, with the zero
fallthrough of the object lookup. -/
def permissionLevels (p : String) : Nat :=
  if p = "view" then 1 else if p = "edit" then 2 else if p = "admin" then 3 else 0

/-- Middleware checkCollaborationPermission (errorHandler.js 753 to 798):
the owner always passes; otherwise the caller needs a collaborator entry
(the first entry for the caller, as returned by find) whose level reaches
the required level. True models the call to next (allow); false models the
403 denial. -/
def checkCollaborationPermission (requiredPermission : String) (note : Note)
    (userId : String) : Bool :=
  if note.author == userId then true
  else
    match note.collaborators.find? (fun c => c.user == userId) with
    | none => false
    | some collaboration =>
      decide (permissionLevels requiredPermission ≤ permissionLevels collaboration.permission)

/-- Truthy content field of an update body that differs from the stored
content: exactly the condition under which updateNote treats the request
as content-changing (its backup call) and under which the assignment marks
the content path modified. -/
def isContentChanging (b : NoteController.UpdateNoteBody) (n : Note) : Bool :=
  match b.content with
  | some c => c != "" && c != n.content
  | none => false

/-- Sequential application of timed update requests through updateNote. -/
def applyEdits : List (Int × NoteController.UpdateNoteBody) → Note → Note
  | [], n => n
  | (t, b) :: rest, n => applyEdits rest (NoteController.updateNote b n t)

/-- Every request of the sequence is content-changing at its point of
application. -/
def allContentChanging : List (Int × NoteController.UpdateNoteBody) → Note → Bool
  | [], _ => true
  | (t, b) :: rest, n =>
    isContentChanging b n && allContentChanging rest (NoteController.updateNote b n t)

/-- Operations of the sharing, collaboration and versioning subsystem on a
single note: share-link issuance, revocation and settings update, a
content or metadata update, the collaborator operations, soft delete and
restore, and a shared view. -/
inductive SubsystemOp where
  | createLink (token : String) (permissions : Option String) (expiresIn : Option Int) (now : Int)
  | revokeLink
  | updateSettings (body : ShareController.ShareSettingsBody) (now : Int)
  | contentUpdate (body : NoteController.UpdateNoteBody) (now : Int)
  | addCollab (userId : String) (permission : Option String) (now : Int)
  | updateCollabPerm (userId permission : String)
  | removeCollab (userId : String)
  | softDel (now : Int)
  | restoreNote
  | view (now : Int)
  deriving Repr

/-- Effect of one subsystem operation on the note. The share routes run
through the controllers on the singleton store of the note addressed by
its own id and author (their failure paths leave the note unwritten); the
remaining operations are the model methods and the update controller. -/
def applyOp (n : Note) (op : SubsystemOp) : Note :=
  match op with
  | .createLink token permissions expiresIn now =>
    match ShareController.createShareLink [n] n.author n.id permissions expiresIn token now with
    | .ok m => m
    | .error _ => n
  | .revokeLink =>
    match ShareController.revokeShareLink [n] n.author n.id with
    | .ok m => m
    | .error _ => n
  | .updateSettings body now =>
    match ShareController.updateShareSettings [n] n.author n.id body now with
    | .ok m => m
    | .error _ => n
  | .contentUpdate body now => NoteController.updateNote body n now
  | .addCollab userId permission now => n.addCollaborator userId (permission.getD "view") now
  | .updateCollabPerm userId permission =>
    match ShareController.updateCollaboratorPermission [n] n.author n.id userId permission with
    | .ok m => m
    | .error _ => n
  | .removeCollab userId => n.removeCollaborator userId
  | .softDel now => n.softDelete now
  | .restoreNote => n.restore
  | .view now => n.incrementViewCount now

/-- Sequential application of subsystem operations. -/
def applyOps (ops : List SubsystemOp) (n : Note) : Note :=
  ops.foldl applyOp n

/-- Share-settings invariant of the data model: the token is present
exactly when the shared flag is set. -/
def shareInv (n : Note) : Prop :=
  n.shareSettings.shareId.isSome = n.shareSettings.isShared

/-- Consistency of the derived fields with the stored content, as
established by any earlier save of the document: the excerpt is nonempty
whenever the content is (the hook fills a falsy excerpt from truthy
content), and the word count and reading time agree with the content.
A save of an unmodified document is the identity exactly under these. -/
def saveStable (n : Note) : Prop :=
  (n.excerpt = "" → n.content = "") ∧
  (n.content ≠ "" →
    n.wordCount = (wordsOf (stripHtml n.content).toList).length ∧
    n.readingTime = ((wordsOf (stripHtml n.content).toList).length + 199) / 200)

/-- Projection of a tag store to the observable the delete and restore
pairing concerns: ids with their usage counters. -/
def tagCounts (tags : List Tag) : List (String × Int) :=
  tags.map (fun t => (t.id, t.usageCount))

/-- Concrete note used by witnesses: a persisted document of author u1
with one tag reference and consistent derived fields. -/
def demoNote : Note :=
  { id := "n1", title := "T", content := "Hello", excerpt := "Hello",
    wordCount := 1, readingTime := 1, author := "u1", tags := ["t1"] }

/-- Concrete soft-deleted note used by witnesses: demoNote in the deleted
state. -/
def deletedDemoNote : Note :=
  { demoNote with isDeleted := true, deletedAt := some 3 }

/-- Concrete tag store used by witnesses. -/
def demoTags : List Tag :=
  [{ id := "t1", usageCount := 3, lastUsedAt := none },
   { id := "t2", usageCount := 0, lastUsedAt := some 1 }]

/-- Concrete shared note used by witnesses: demoNote with an active share
link carrying token s1 and no expiry. -/
def sharedNote : Note :=
  { demoNote with shareSettings :=
    { isShared := true, shareId := some "s1", sharePermissions := "view",
      shareExpiresAt := none, allowComments := false } }

/-- Concrete shared note with a past expiry used by witnesses. -/
def expiredNote : Note :=
  { demoNote with shareSettings :=
    { isShared := true, shareId := some "s2", sharePermissions := "view",
      shareExpiresAt := some 10, allowComments := false } }

/-- Concrete user store used by witnesses. -/
def demoUsers : List User :=
  [{ id := "u1", email := "a@x.com" }, { id := "u2", email := "b@x.com" },
   { id := "v1", email := "v@x.com" }]

/-- Concrete note with collaborators used by witnesses: author a1, a view
collaborator v1 and an edit collaborator e1. -/
def permNote : Note :=
  { id := "n2", title := "T", content := "Hello", author := "a1",
    collaborators := [{ user := "v1", permission := "view", addedAt := 0 },
                      { user := "e1", permission := "edit", addedAt := 0 }] }

/-! Projection lemmas: what a save leaves untouched, what it derives. -/

@[simp] theorem save_shareSettings (n : Note) : (save n).shareSettings = n.shareSettings := rfl

@[simp] theorem save_collaborators (n : Note) : (save n).collaborators = n.collaborators := rfl

@[simp] theorem save_previousVersions (n : Note) :
    (save n).previousVersions = n.previousVersions := rfl

@[simp] theorem save_isDeleted (n : Note) : (save n).isDeleted = n.isDeleted := rfl

@[simp] theorem save_deletedAt (n : Note) : (save n).deletedAt = n.deletedAt := rfl

@[simp] theorem save_tags (n : Note) : (save n).tags = n.tags := rfl

@[simp] theorem save_content (n : Note) : (save n).content = n.content := rfl

@[simp] theorem save_title (n : Note) : (save n).title = n.title := rfl

@[simp] theorem save_author (n : Note) : (save n).author = n.author := rfl

@[simp] theorem save_id (n : Note) : (save n).id = n.id := rfl

@[simp] theorem save_viewCount (n : Note) : (save n).viewCount = n.viewCount := rfl

@[simp] theorem save_lastViewedAt (n : Note) : (save n).lastViewedAt = n.lastViewedAt := rfl

@[simp] theorem save_modifiedContent (n : Note) : (save n).modifiedContent = false := rfl

@[simp] theorem save_modifiedTitle (n : Note) : (save n).modifiedTitle = false := rfl

@[simp] theorem save_isNew (n : Note) : (save n).isNew = false := rfl

theorem save_version (n : Note) :
    (save n).version = if n.modifiedContent && !n.isNew then n.version + 1 else n.version := rfl

theorem save_editCount (n : Note) :
    (save n).editCount =
      if n.modifiedContent && !n.isNew then n.editCount + 1 else n.editCount := rfl

/-! Projection lemmas for the path assignments. -/

theorem setTitle_content (n : Note) (t : String) : (setTitle n t).content = n.content := by
  unfold setTitle; split <;> rfl

theorem setTitle_version (n : Note) (t : String) : (setTitle n t).version = n.version := by
  unfold setTitle; split <;> rfl

theorem setTitle_editCount (n : Note) (t : String) : (setTitle n t).editCount = n.editCount := by
  unfold setTitle; split <;> rfl

theorem setTitle_isNew (n : Note) (t : String) : (setTitle n t).isNew = n.isNew := by
  unfold setTitle; split <;> rfl

theorem setTitle_modifiedContent (n : Note) (t : String) :
    (setTitle n t).modifiedContent = n.modifiedContent := by
  unfold setTitle; split <;> rfl

theorem setTitle_shareSettings (n : Note) (t : String) :
    (setTitle n t).shareSettings = n.shareSettings := by
  unfold setTitle; split <;> rfl

theorem setTitle_previousVersions (n : Note) (t : String) :
    (setTitle n t).previousVersions = n.previousVersions := by
  unfold setTitle; split <;> rfl

theorem setContent_version (n : Note) (c : String) : (setContent n c).version = n.version := by
  unfold setContent; split <;> rfl

theorem setContent_editCount (n : Note) (c : String) :
    (setContent n c).editCount = n.editCount := by
  unfold setContent; split <;> rfl

theorem setContent_isNew (n : Note) (c : String) : (setContent n c).isNew = n.isNew := by
  unfold setContent; split <;> rfl

theorem setContent_shareSettings (n : Note) (c : String) :
    (setContent n c).shareSettings = n.shareSettings := by
  unfold setContent; split <;> rfl

theorem setContent_previousVersions (n : Note) (c : String) :
    (setContent n c).previousVersions = n.previousVersions := by
  unfold setContent; split <;> rfl

/-- Generic projection transport through an optional assignment. -/
theorem applyOpt_proj {α β : Type} (proj : Note → β) {o : Option α}
    {f : Note → α → Note} {n : Note} (h : ∀ m a, proj (f m a) = proj m) :
    proj (NoteController.applyOpt o f n) = proj n := by
  cases o with
  | none => rfl
  | some a => exact h n a

/-! Projection lemmas for the field-assignment block of updateNote. -/

theorem updateFields_version (b : NoteController.UpdateNoteBody) (n : Note) :
    (NoteController.updateFields b n).version = n.version := by
  unfold NoteController.updateFields
  rw [applyOpt_proj Note.version, applyOpt_proj Note.version, applyOpt_proj Note.version,
      applyOpt_proj Note.version, applyOpt_proj Note.version, applyOpt_proj Note.version,
      applyOpt_proj Note.version, applyOpt_proj Note.version]
  all_goals intro m a
  any_goals rfl
  · exact setTitle_version m a
  · exact setContent_version m a

theorem updateFields_editCount (b : NoteController.UpdateNoteBody) (n : Note) :
    (NoteController.updateFields b n).editCount = n.editCount := by
  unfold NoteController.updateFields
  rw [applyOpt_proj Note.editCount, applyOpt_proj Note.editCount, applyOpt_proj Note.editCount,
      applyOpt_proj Note.editCount, applyOpt_proj Note.editCount, applyOpt_proj Note.editCount,
      applyOpt_proj Note.editCount, applyOpt_proj Note.editCount]
  all_goals intro m a
  any_goals rfl
  · exact setTitle_editCount m a
  · exact setContent_editCount m a

theorem updateFields_isNew (b : NoteController.UpdateNoteBody) (n : Note) :
    (NoteController.updateFields b n).isNew = n.isNew := by
  unfold NoteController.updateFields
  rw [applyOpt_proj Note.isNew, applyOpt_proj Note.isNew, applyOpt_proj Note.isNew,
      applyOpt_proj Note.isNew, applyOpt_proj Note.isNew, applyOpt_proj Note.isNew,
      applyOpt_proj Note.isNew, applyOpt_proj Note.isNew]
  all_goals intro m a
  any_goals rfl
  · exact setTitle_isNew m a
  · exact setContent_isNew m a

theorem updateFields_shareSettings (b : NoteController.UpdateNoteBody) (n : Note) :
    (NoteController.updateFields b n).shareSettings = n.shareSettings := by
  unfold NoteController.updateFields
  rw [applyOpt_proj Note.shareSettings, applyOpt_proj Note.shareSettings,
      applyOpt_proj Note.shareSettings, applyOpt_proj Note.shareSettings,
      applyOpt_proj Note.shareSettings, applyOpt_proj Note.shareSettings,
      applyOpt_proj Note.shareSettings, applyOpt_proj Note.shareSettings]
  all_goals intro m a
  any_goals rfl
  · exact setTitle_shareSettings m a
  · exact setContent_shareSettings m a

theorem updateFields_previousVersions (b : NoteController.UpdateNoteBody) (n : Note) :
    (NoteController.updateFields b n).previousVersions = n.previousVersions := by
  unfold NoteController.updateFields
  rw [applyOpt_proj Note.previousVersions, applyOpt_proj Note.previousVersions,
      applyOpt_proj Note.previousVersions, applyOpt_proj Note.previousVersions,
      applyOpt_proj Note.previousVersions, applyOpt_proj Note.previousVersions,
      applyOpt_proj Note.previousVersions, applyOpt_proj Note.previousVersions]
  all_goals intro m a
  any_goals rfl
  · exact setTitle_previousVersions m a
  · exact setContent_previousVersions m a

theorem updateFields_modifiedContent (b : NoteController.UpdateNoteBody) (n : Note) :
    (NoteController.updateFields b n).modifiedContent =
      (match b.content with
       | some c => if c = n.content then n.modifiedContent else true
       | none => n.modifiedContent) := by
  unfold NoteController.updateFields
  rw [applyOpt_proj Note.modifiedContent, applyOpt_proj Note.modifiedContent,
      applyOpt_proj Note.modifiedContent, applyOpt_proj Note.modifiedContent,
      applyOpt_proj Note.modifiedContent, applyOpt_proj Note.modifiedContent]
  rotate_left
  all_goals try (intro m a; rfl)
  have ht : (NoteController.applyOpt b.title (fun m v => setTitle m v) n).content = n.content :=
    applyOpt_proj Note.content (fun m a => setTitle_content m a)
  have htm :
      (NoteController.applyOpt b.title (fun m v => setTitle m v) n).modifiedContent =
        n.modifiedContent :=
    applyOpt_proj Note.modifiedContent (fun m a => setTitle_modifiedContent m a)
  cases hb : b.content with
  | none => exact htm
  | some c =>
    show (setContent _ c).modifiedContent = _
    unfold setContent
    rw [apply_ite Note.modifiedContent, ht, htm]

/-! Projection lemmas for createVersionBackup. -/

theorem createVersionBackup_not_modified (n : Note) (t : Int)
    (h : n.modifiedContent = false) : n.createVersionBackup t = n := by
  unfold Note.createVersionBackup
  rw [h]
  rfl

theorem createVersionBackup_shareSettings (n : Note) (t : Int) :
    (n.createVersionBackup t).shareSettings = n.shareSettings := by
  unfold Note.createVersionBackup; split <;> rfl

/-! Lemmas on updateNote as a whole. -/

theorem updateNote_modifiedContent (b : NoteController.UpdateNoteBody) (n : Note) (t : Int) :
    (NoteController.updateNote b n t).modifiedContent = false := rfl

theorem updateNote_isNew (b : NoteController.UpdateNoteBody) (n : Note) (t : Int) :
    (NoteController.updateNote b n t).isNew = false := rfl

/-- Effect of the backup stage of updateNote on a freshly loaded note: the
createVersionBackup call is an identity because the content path is not
yet modified when it runs. -/
theorem backupStage_eq (b : NoteController.UpdateNoteBody) (n : Note) (t : Int)
    (h : n.modifiedContent = false) :
    (match b.content with
     | some c => if c != "" && c != n.content then n.createVersionBackup t else n
     | none => n) = n := by
  cases b.content with
  | none => rfl
  | some c =>
    dsimp only
    split
    · exact createVersionBackup_not_modified n t h
    · rfl

theorem updateNote_shareSettings (b : NoteController.UpdateNoteBody) (n : Note) (t : Int) :
    (NoteController.updateNote b n t).shareSettings = n.shareSettings := by
  simp only [NoteController.updateNote, save_shareSettings, updateFields_shareSettings]
  rw [applyOpt_proj Note.shareSettings]
  · cases b.content with
    | none => rfl
    | some c =>
      dsimp only
      split
      · exact createVersionBackup_shareSettings n t
      · rfl
  · intro m a; rfl

theorem updateNote_previousVersions (b : NoteController.UpdateNoteBody) (n : Note) (t : Int)
    (h : n.modifiedContent = false) :
    (NoteController.updateNote b n t).previousVersions = n.previousVersions := by
  simp only [NoteController.updateNote, save_previousVersions, updateFields_previousVersions]
  rw [applyOpt_proj Note.previousVersions]
  · rw [backupStage_eq b n t h]
  · intro m a; rfl

/-- Version and edit counter step of updateNote on a content-changing
request applied to a loaded document. -/
theorem updateNote_step_changing (b : NoteController.UpdateNoteBody) (n : Note) (t : Int)
    (hmc : n.modifiedContent = false) (hnew : n.isNew = false)
    (hcc : isContentChanging b n = true) :
    (NoteController.updateNote b n t).version = n.version + 1 ∧
    (NoteController.updateNote b n t).editCount = n.editCount + 1 := by
  obtain ⟨c, hb, hnc⟩ : ∃ c, b.content = some c ∧ c ≠ n.content := by
    unfold isContentChanging at hcc
    cases hbc : b.content with
    | none => rw [hbc] at hcc; exact absurd hcc (by simp)
    | some c =>
      rw [hbc] at hcc
      simp only [Bool.and_eq_true, bne_iff_ne, ne_eq] at hcc
      exact ⟨c, rfl, hcc.2⟩
  simp only [NoteController.updateNote]
  rw [backupStage_eq b n t hmc]
  have h2v : (NoteController.applyOpt b.tags (fun m ts => { m with tags := ts }) n).version
      = n.version := applyOpt_proj Note.version (fun m a => rfl)
  have h2e : (NoteController.applyOpt b.tags (fun m ts => { m with tags := ts }) n).editCount
      = n.editCount := applyOpt_proj Note.editCount (fun m a => rfl)
  have h2n : (NoteController.applyOpt b.tags (fun m ts => { m with tags := ts }) n).isNew
      = n.isNew := applyOpt_proj Note.isNew (fun m a => rfl)
  have h2c : (NoteController.applyOpt b.tags (fun m ts => { m with tags := ts }) n).content
      = n.content := applyOpt_proj Note.content (fun m a => rfl)
  constructor
  · rw [save_version, updateFields_version, updateFields_isNew, updateFields_modifiedContent,
        hb, h2v, h2n, h2c, hnew]
    simp [hnc]
  · rw [save_editCount, updateFields_editCount, updateFields_isNew, updateFields_modifiedContent,
        hb, h2e, h2n, h2c, hnew]
    simp [hnc]

/-- Version and edit counter preservation of updateNote on a request whose
content field is absent or equal to the stored content. -/
theorem updateNote_step_unchanged (b : NoteController.UpdateNoteBody) (n : Note) (t : Int)
    (hmc : n.modifiedContent = false)
    (hun : b.content = none ∨ b.content = some n.content) :
    (NoteController.updateNote b n t).version = n.version ∧
    (NoteController.updateNote b n t).editCount = n.editCount := by
  simp only [NoteController.updateNote]
  rw [backupStage_eq b n t hmc]
  have h2v : (NoteController.applyOpt b.tags (fun m ts => { m with tags := ts }) n).version
      = n.version := applyOpt_proj Note.version (fun m a => rfl)
  have h2e : (NoteController.applyOpt b.tags (fun m ts => { m with tags := ts }) n).editCount
      = n.editCount := applyOpt_proj Note.editCount (fun m a => rfl)
  have h2n : (NoteController.applyOpt b.tags (fun m ts => { m with tags := ts }) n).isNew
      = n.isNew := applyOpt_proj Note.isNew (fun m a => rfl)
  have h2m : (NoteController.applyOpt b.tags (fun m ts => { m with tags := ts }) n).modifiedContent
      = n.modifiedContent := applyOpt_proj Note.modifiedContent (fun m a => rfl)
  have h2c : (NoteController.applyOpt b.tags (fun m ts => { m with tags := ts }) n).content
      = n.content := applyOpt_proj Note.content (fun m a => rfl)
  rcases hun with hb | hb
  · constructor
    · rw [save_version, updateFields_version, updateFields_isNew, updateFields_modifiedContent,
          hb, h2v, h2n, h2m, hmc]
      simp
    · rw [save_editCount, updateFields_editCount, updateFields_isNew,
          updateFields_modifiedContent, hb, h2e, h2n, h2m, hmc]
      simp
  · constructor
    · rw [save_version, updateFields_version, updateFields_isNew, updateFields_modifiedContent,
          hb, h2v, h2n, h2m, h2c, hmc]
      simp
    · rw [save_editCount, updateFields_editCount, updateFields_isNew,
          updateFields_modifiedContent, hb, h2e, h2n, h2m, h2c, hmc]
      simp

/-- Counter evolution over a sequence of content-changing updates. -/
theorem applyEdits_counters (edits : List (Int × NoteController.UpdateNoteBody)) :
    ∀ n : Note, n.modifiedContent = false → n.isNew = false →
    allContentChanging edits n = true →
    (applyEdits edits n).version = n.version + edits.length ∧
    (applyEdits edits n).editCount = n.editCount + edits.length := by
  induction edits with
  | nil => intro n _ _ _; exact ⟨by simp [applyEdits], by simp [applyEdits]⟩
  | cons e rest ih =>
    obtain ⟨t, b⟩ := e
    intro n hmc hnew hall
    simp only [allContentChanging, Bool.and_eq_true] at hall
    obtain ⟨hcc, hrest⟩ := hall
    have hstep := updateNote_step_changing b n t hmc hnew hcc
    have hrec := ih (NoteController.updateNote b n t)
      (updateNote_modifiedContent b n t) (updateNote_isNew b n t) hrest
    simp only [applyEdits]
    refine ⟨?_, ?_⟩
    · rw [hrec.1, hstep.1]; simp; omega
    · rw [hrec.2, hstep.2]; simp; omega

/-- C1: on an existing note, a content-changing update is claimed to first
append the snapshot of the current version, title, content, time and
editor to previousVersions, capped at the most recent 10. The code never
appends a snapshot: updateNote calls createVersionBackup before assigning
the new content, and the method body is guarded by the modified state of
the content path, which is still false on the freshly loaded document, so
previousVersions is always left unchanged (while the version bump of the
pre-save hook does fire). -/
theorem C1_no_snapshot :
    (∀ (b : NoteController.UpdateNoteBody) (n : Note) (t : Int),
      n.modifiedContent = false →
      (NoteController.updateNote b n t).previousVersions = n.previousVersions) ∧
    (NoteController.updateNote { content := some "Hello world" } demoNote 5).previousVersions
      = [] ∧
    (NoteController.updateNote { content := some "Hello world" } demoNote 5).version = 2 :=
  ⟨fun b n t h => updateNote_previousVersions b n t h, by decide, by decide⟩

/-- Witness for C1: the general part applied to the demo note and a
concrete content change. -/
theorem C1_witness :
    demoNote.modifiedContent = false ∧
    (NoteController.updateNote { content := some "X" } demoNote 7).previousVersions
      = demoNote.previousVersions :=
  ⟨rfl, C1_no_snapshot.1 { content := some "X" } demoNote 7 rfl⟩

/-- C2: a fresh note is created with version 1 and editCount 0; after N
content-changing updates the version is N plus 1 and the editCount is N,
while an update whose content field is absent or equal to the stored
content (tags, status, pinning, title-only requests) leaves both counters
unchanged. -/
theorem C2_version_editCount :
    (∀ (edits : List (Int × NoteController.UpdateNoteBody)) (n : Note),
      n.modifiedContent = false → n.isNew = false → n.version = 1 → n.editCount = 0 →
      allContentChanging edits n = true →
      (applyEdits edits n).version = edits.length + 1 ∧
      (applyEdits edits n).editCount = edits.length) ∧
    (∀ (b : NoteController.UpdateNoteBody) (n : Note) (t : Int),
      n.modifiedContent = false →
      (b.content = none ∨ b.content = some n.content) →
      (NoteController.updateNote b n t).version = n.version ∧
      (NoteController.updateNote b n t).editCount = n.editCount) := by
  constructor
  · intro edits n hmc hnew hv he hall
    have h := applyEdits_counters edits n hmc hnew hall
    rw [hv, he] at h
    exact ⟨by rw [h.1]; omega, by rw [h.2]; omega⟩
  · intro b n t hmc hun
    exact updateNote_step_unchanged b n t hmc hun

/-- Witness for C2: two successive content edits of a freshly created note
take the version from 1 to 3 and the edit counter from 0 to 2, and a
status-only update of the demo note changes neither counter. -/
theorem C2_witness :
    (applyEdits [(1, { content := some "Hello world" }), (2, { content := some "Hi" })]
      (NoteController.createNote "n1" "T" "Hello" "u1" [])).version = 3 ∧
    (applyEdits [(1, { content := some "Hello world" }), (2, { content := some "Hi" })]
      (NoteController.createNote "n1" "T" "Hello" "u1" [])).editCount = 2 ∧
    (NoteController.updateNote { status := some "published" } demoNote 3).version
      = demoNote.version ∧
    (NoteController.updateNote { status := some "published" } demoNote 3).editCount
      = demoNote.editCount := by
  have h1 := C2_version_editCount.1
    [(1, { content := some "Hello world" }), (2, { content := some "Hi" })]
    (NoteController.createNote "n1" "T" "Hello" "u1" [])
    (by decide) (by decide) (by decide) (by decide) (by decide)
  have h2 := C2_version_editCount.2 { status := some "published" } demoNote 3
    (by decide) (Or.inl rfl)
  exact ⟨h1.1, h1.2, h2.1, h2.2⟩

/-- C5 counterexample: permanent deletion of an existing but active
(non-deleted) note does not fail with a Conflict-style invalid-state
error: it returns the very same 404 response as a wholly absent note, so
the claimed Conflict failure is false at this input. -/
theorem C5_counterexample :
    NoteController.permanentDeleteNote [demoNote] "u1" "n1"
      = .error { message := "Deleted note not found", statusCode := 404 } ∧
    NoteController.permanentDeleteNote [] "u1" "n1"
      = .error { message := "Deleted note not found", statusCode := 404 } ∧
    (404 : Nat) ≠ 409 := by
  refine ⟨by decide, by decide, by decide⟩

/-- C5 amended: permanent deletion is only reachable on a soft-deleted
note; attempting it on an active note fails with the NotFound error
(status 404, message Deleted note not found — identical to the response
for a missing note), not with Conflict; on a caller-owned soft-deleted
note the document is removed entirely from the store. -/
theorem C5_permanentDelete :
    (∀ (db : List Note) (userId noteId : String),
      (∀ n ∈ db, n.id = noteId → n.author = userId → n.isDeleted = false) →
      NoteController.permanentDeleteNote db userId noteId
        = .error { message := "Deleted note not found", statusCode := 404 }) ∧
    (∀ (db : List Note) (userId noteId : String),
      (∃ n ∈ db, n.id = noteId ∧ n.author = userId ∧ n.isDeleted = true) →
      ∃ db2, NoteController.permanentDeleteNote db userId noteId = .ok db2 ∧
        ∀ n ∈ db2, n.id ≠ noteId) := by
  constructor
  · intro db userId noteId h
    unfold NoteController.permanentDeleteNote
    have hnone : db.find? (fun n => n.id == noteId && n.author == userId && n.isDeleted)
        = none := by
      rw [List.find?_eq_none]
      intro n hn hc
      simp only [Bool.and_eq_true, beq_iff_eq] at hc
      obtain ⟨⟨hid, hau⟩, hdel⟩ := hc
      rw [h n hn hid hau] at hdel
      exact absurd hdel (by decide)
    rw [hnone]
  · intro db userId noteId h
    obtain ⟨n0, hn0, hid, hau, hdel⟩ := h
    unfold NoteController.permanentDeleteNote
    cases hf : db.find? (fun n => n.id == noteId && n.author == userId && n.isDeleted) with
    | none =>
      exfalso
      rw [List.find?_eq_none] at hf
      exact hf n0 hn0 (by simp [hid, hau, hdel])
    | some m =>
      refine ⟨_, rfl, ?_⟩
      intro n hn
      have hpm := List.find?_some hf
      simp only [Bool.and_eq_true, beq_iff_eq] at hpm
      have hne : n.id ≠ m.id := by simpa using (List.mem_filter.mp hn).2
      rw [hpm.1.1] at hne
      exact hne

/-- Witness for C5: the amended theorem applied to a store holding one
active note (the 404 branch) and to a store holding one soft-deleted note
(the purge branch). -/
theorem C5_witness :
    NoteController.permanentDeleteNote [demoNote] "u1" "n1"
      = .error { message := "Deleted note not found", statusCode := 404 } ∧
    ∃ db2, NoteController.permanentDeleteNote [deletedDemoNote] "u1" "n1" = .ok db2 ∧
      ∀ n ∈ db2, n.id ≠ "n1" :=
  ⟨C5_permanentDelete.1 [demoNote] "u1" "n1" (by decide),
   C5_permanentDelete.2 [deletedDemoNote] "u1" "n1"
     ⟨deletedDemoNote, by simp, by decide, by decide, by decide⟩⟩

/-- C7: the collaboration permission check allows access exactly when the
caller is the author, or the caller has a collaborator entry whose level
under view 1, edit 2, admin 3 reaches the required level (stated for
collaborator lists without duplicate users, the shape the registry
maintains); in particular a view collaborator is denied edit, an edit
collaborator is allowed view, and the author is always allowed. -/
theorem C7_checkPermission :
    (∀ (note : Note) (userId requiredPermission : String),
      note.collaborators.Pairwise (fun a b => a.user ≠ b.user) →
      (checkCollaborationPermission requiredPermission note userId = true ↔
        (note.author = userId ∨
          ∃ c ∈ note.collaborators, c.user = userId ∧
            permissionLevels requiredPermission ≤ permissionLevels c.permission))) ∧
    (∀ (note : Note) (userId : String) (c : Collaborator),
      note.author ≠ userId →
      note.collaborators.find? (fun x => x.user == userId) = some c →
      c.permission = "view" →
      checkCollaborationPermission "edit" note userId = false) ∧
    (∀ (note : Note) (userId : String) (c : Collaborator),
      note.author ≠ userId →
      note.collaborators.find? (fun x => x.user == userId) = some c →
      c.permission = "edit" →
      checkCollaborationPermission "view" note userId = true) ∧
    (∀ (note : Note) (p : String), checkCollaborationPermission p note note.author = true) := by
  have hsym : Symmetric (fun a b : Collaborator => a.user ≠ b.user) :=
    fun a b h e => h e.symm
  refine ⟨?_, ?_, ?_, ?_⟩
  · intro note userId req hnd
    unfold checkCollaborationPermission
    by_cases hau : note.author = userId
    · subst hau
      simp
    · rw [if_neg (by simpa using hau)]
      cases hfind : note.collaborators.find? (fun c => c.user == userId) with
      | none =>
        rw [List.find?_eq_none] at hfind
        dsimp only
        simp only [Bool.false_eq_true, false_iff]
        rintro (h | ⟨c, hc, hcu, _⟩)
        · exact hau h
        · exact hfind c hc (by simp [hcu])
      | some c =>
        have hcu : c.user = userId := by simpa using List.find?_some hfind
        have hcmem := List.mem_of_find?_eq_some hfind
        dsimp only
        simp only [decide_eq_true_eq]
        constructor
        · intro hle
          exact Or.inr ⟨c, hcmem, hcu, hle⟩
        · rintro (h | ⟨c2, hc2, hcu2, hle2⟩)
          · exact absurd h hau
          · rcases eq_or_ne c2 c with rfl | hne
            · exact hle2
            · exact absurd (hcu2.trans hcu.symm) (hnd.forall hsym hc2 hcmem hne)
  · intro note userId c hau hfind hperm
    unfold checkCollaborationPermission
    rw [if_neg (by simpa using hau), hfind]
    dsimp only
    rw [hperm]
    decide
  · intro note userId c hau hfind hperm
    unfold checkCollaborationPermission
    rw [if_neg (by simpa using hau), hfind]
    dsimp only
    rw [hperm]
    decide
  · intro note p
    unfold checkCollaborationPermission
    simp

/-- Witness for C7: the permission table on a concrete note with a view
collaborator, an edit collaborator and its author. -/
theorem C7_witness :
    (checkCollaborationPermission "edit" permNote "v1" = true ↔
      (permNote.author = "v1" ∨
        ∃ c ∈ permNote.collaborators, c.user = "v1" ∧
          permissionLevels "edit" ≤ permissionLevels c.permission)) ∧
    checkCollaborationPermission "edit" permNote "v1" = false ∧
    checkCollaborationPermission "view" permNote "e1" = true ∧
    checkCollaborationPermission "admin" permNote permNote.author = true :=
  ⟨C7_checkPermission.1 permNote "v1" "edit" (by decide),
   C7_checkPermission.2.1 permNote "v1" { user := "v1", permission := "view", addedAt := 0 }
     (by decide) (by decide) rfl,
   C7_checkPermission.2.2.1 permNote "e1" { user := "e1", permission := "edit", addedAt := 0 }
     (by decide) (by decide) rfl,
   C7_checkPermission.2.2.2 permNote "admin"⟩

/-- Characterization of the owner-scoped lookup. -/
theorem findOwnedNote_some {db : List Note} {u i : String} {n : Note}
    (h : findOwnedNote db u i = some n) :
    n.id = i ∧ n.author = u ∧ n.isDeleted = false := by
  have hp := List.find?_some h
  simp only [Bool.and_eq_true, beq_iff_eq, Bool.not_eq_true'] at hp
  exact ⟨hp.1.1, hp.1.2, hp.2⟩

/-- C4: resolving a shared note by token answers the 404 NotFound error
when no non-deleted, currently-shared note carries the token (unshared and
soft-deleted notes do not match the lookup); when a matching note exists
but its stored expiry lies strictly in the past it answers the 410 Gone
error instead; and on success it returns the note with viewCount
incremented and lastViewedAt set to the current time. -/
theorem C4_getSharedNote :
    (∀ (db : List Note) (sid : String) (now : Int),
      (∀ n ∈ db, ¬(n.shareSettings.shareId = some sid ∧
        n.shareSettings.isShared = true ∧ n.isDeleted = false)) →
      ShareController.getSharedNote db sid now
        = .error { message := "Shared note not found or link has expired",
                   statusCode := 404 }) ∧
    (∀ (db : List Note) (sid : String) (now e : Int) (note : Note),
      findByShareId db sid = some note →
      note.shareSettings.shareExpiresAt = some e → e < now →
      ShareController.getSharedNote db sid now
        = .error { message := "Share link has expired", statusCode := 410 }) ∧
    (∀ (db : List Note) (sid : String) (now : Int) (note : Note),
      findByShareId db sid = some note →
      shareExpired now note.shareSettings = false →
      ∃ n2, ShareController.getSharedNote db sid now = .ok n2 ∧
        n2.viewCount = note.viewCount + 1 ∧ n2.lastViewedAt = some now) := by
  refine ⟨?_, ?_, ?_⟩
  · intro db sid now h
    unfold ShareController.getSharedNote
    have hnone : findByShareId db sid = none := by
      unfold findByShareId
      rw [List.find?_eq_none]
      intro n hn hc
      simp only [Bool.and_eq_true, beq_iff_eq, Bool.not_eq_true'] at hc
      exact h n hn ⟨hc.1.1, hc.1.2, hc.2⟩
    rw [hnone]
  · intro db sid now e note hfind hexp hlt
    unfold ShareController.getSharedNote
    rw [hfind]
    dsimp only
    have hx : shareExpired now note.shareSettings = true := by
      unfold shareExpired
      rw [hexp]
      simpa using hlt
    rw [if_pos hx]
  · intro db sid now note hfind hexp
    unfold ShareController.getSharedNote
    rw [hfind]
    dsimp only
    rw [if_neg (by simp [hexp])]
    exact ⟨note.incrementViewCount now, rfl, rfl, rfl⟩

/-- Witness for C4: a store without a matching share token answers 404, an
expired share answers 410, and a live share is returned with the view
counter bumped. -/
theorem C4_witness :
    ShareController.getSharedNote [demoNote] "nope" 0
      = .error { message := "Shared note not found or link has expired",
                 statusCode := 404 } ∧
    ShareController.getSharedNote [expiredNote] "s2" 999
      = .error { message := "Share link has expired", statusCode := 410 } ∧
    ∃ n2, ShareController.getSharedNote [sharedNote] "s1" 5 = .ok n2 ∧
      n2.viewCount = sharedNote.viewCount + 1 ∧ n2.lastViewedAt = some 5 :=
  ⟨C4_getSharedNote.1 [demoNote] "nope" 0 (by decide),
   C4_getSharedNote.2.1 [expiredNote] "s2" 999 10 expiredNote (by decide) rfl (by decide),
   C4_getSharedNote.2.2 [sharedNote] "s1" 5 sharedNote (by decide) rfl⟩

/-- C6: addCollaborator rejects the note's author as target with the
self-collaboration error (the spec's Conflict case, status 400 in this
code), and an already-present collaborator is rejected with the duplicate
error, so a successful call implies the target had no entry before and
has exactly one entry afterwards — a second entry for the same user is
never produced. -/
theorem C6_addCollaborator :
    (∀ (db : List Note) (users : List User) (userId noteId email : String)
       (permission : Option String) (now : Int) (note : Note) (target : User),
      findOwnedNote db userId noteId = some note →
      findByEmail users email = some target →
      target.id = note.author →
      ShareController.addCollaborator db users userId noteId email permission now
        = .error { message := "Cannot add yourself as a collaborator", statusCode := 400 }) ∧
    (∀ (db : List Note) (users : List User) (userId noteId email : String)
       (permission : Option String) (now : Int) (note : Note) (target : User),
      findOwnedNote db userId noteId = some note →
      findByEmail users email = some target →
      target.id ≠ userId →
      (∃ c ∈ note.collaborators, c.user = target.id) →
      ShareController.addCollaborator db users userId noteId email permission now
        = .error { message := "User is already a collaborator on this note",
                   statusCode := 400 }) ∧
    (∀ (db : List Note) (users : List User) (userId noteId email : String)
       (permission : Option String) (now : Int) (note : Note) (target : User)
       (result : Note),
      findOwnedNote db userId noteId = some note →
      findByEmail users email = some target →
      ShareController.addCollaborator db users userId noteId email permission now
        = .ok result →
      note.collaborators.countP (fun c => c.user == target.id) = 0 ∧
      result.collaborators.countP (fun c => c.user == target.id) = 1) := by
  refine ⟨?_, ?_, ?_⟩
  · intro db users userId noteId email permission now note target hnote hemail hself
    unfold ShareController.addCollaborator
    rw [hnote, hemail]
    dsimp only
    rw [if_pos]
    simp [hself, (findOwnedNote_some hnote).2.1]
  · intro db users userId noteId email permission now note target hnote hemail hne hmem
    unfold ShareController.addCollaborator
    rw [hnote, hemail]
    dsimp only
    rw [if_neg (by simpa using hne)]
    rw [if_pos]
    obtain ⟨c, hc, hcu⟩ := hmem
    cases hf : note.collaborators.find? (fun c => c.user == target.id) with
    | none =>
      exfalso
      exact List.find?_eq_none.mp hf c hc (by simp [hcu])
    | some c2 => simp
  · intro db users userId noteId email permission now note target result hnote hemail hok
    unfold ShareController.addCollaborator at hok
    rw [hnote, hemail] at hok
    dsimp only at hok
    by_cases h1 : (target.id == userId) = true
    · rw [if_pos h1] at hok
      exact absurd hok (by simp)
    · rw [if_neg h1] at hok
      by_cases h2 : (note.collaborators.find? (fun c => c.user == target.id)).isSome = true
      · rw [if_pos h2] at hok
        exact absurd hok (by simp)
      · rw [if_neg h2] at hok
        have hnone : note.collaborators.find? (fun c => c.user == target.id) = none :=
          Option.not_isSome_iff_eq_none.mp h2
        have hzero : note.collaborators.countP (fun c => c.user == target.id) = 0 := by
          rw [List.countP_eq_zero]
          intro c hc
          exact List.find?_eq_none.mp hnone c hc
        refine ⟨hzero, ?_⟩
        have hres : result = note.addCollaborator target.id (permission.getD "view") now := by
          injection hok with h
          exact h.symm
        rw [hres]
        unfold Note.addCollaborator
        rw [if_neg (by simp [hnone])]
        rw [save_collaborators, List.countP_append, hzero]
        simp

/-- Witness for C6: adding the author of the demo note to itself fails
with the self-collaboration error; adding an existing view collaborator of
permNote fails with the duplicate error; adding a fresh user u2 succeeds
with exactly one entry for u2. -/
theorem C6_witness :
    ShareController.addCollaborator [demoNote] demoUsers "u1" "n1" "a@x.com" none 9
      = .error { message := "Cannot add yourself as a collaborator", statusCode := 400 } ∧
    ShareController.addCollaborator [permNote] demoUsers "a1" "n2" "v@x.com" none 9
      = .error { message := "User is already a collaborator on this note",
                 statusCode := 400 } ∧
    (demoNote.collaborators.countP (fun c => c.user == "u2") = 0 ∧
      (demoNote.addCollaborator "u2" "view" 9).collaborators.countP
        (fun c => c.user == "u2") = 1) :=
  ⟨C6_addCollaborator.1 [demoNote] demoUsers "u1" "n1" "a@x.com" none 9 demoNote
     { id := "u1", email := "a@x.com" } (by decide) (by decide) rfl,
   C6_addCollaborator.2.1 [permNote] demoUsers "a1" "n2" "v@x.com" none 9 permNote
     { id := "v1", email := "v@x.com" } (by decide) (by decide) (by decide)
     ⟨{ user := "v1", permission := "view", addedAt := 0 }, by decide, rfl⟩,
   C6_addCollaborator.2.2 [demoNote] demoUsers "u1" "n1" "b@x.com" none 9 demoNote
     { id := "u2", email := "b@x.com" } (demoNote.addCollaborator "u2" "view" 9)
     (by decide) (by decide) (by decide)⟩

/-- Length of a byte in hex. -/
theorem byteHex_length (n : Nat) : (byteHex n).length = 2 := rfl

/-- Every rendered uuid has the fixed 36-character layout. -/
theorem uuidv4_length (r : List Nat) : (uuidv4 r).length = 36 := by
  simp only [uuidv4, String.length_append, byteHex_length]
  decide

/-- A generated share token is never the empty string. -/
theorem generateShareId_ne_empty (r : List Nat) : generateShareId r ≠ "" := by
  intro h
  have hl := uuidv4_length r
  rw [show uuidv4 r = generateShareId r from rfl, h] at hl
  simp at hl

/-- Share-settings outcome of the createShareLink model method: the shared
flag is set, the token is stored, and a falsy expiresIn (absent or zero)
leaves the stored expiry untouched. -/
theorem createShareLink_method (n : Note) (token permissions : String)
    (expiresIn : Option Int) (now : Int) :
    (n.createShareLink token permissions expiresIn now).shareSettings.isShared = true ∧
    (n.createShareLink token permissions expiresIn now).shareSettings.shareId = some token ∧
    ((expiresIn = none ∨ expiresIn = some 0) →
      (n.createShareLink token permissions expiresIn now).shareSettings.shareExpiresAt
        = n.shareSettings.shareExpiresAt) := by
  unfold Note.createShareLink
  cases expiresIn with
  | none => exact ⟨rfl, rfl, fun _ => rfl⟩
  | some ms =>
    dsimp only
    by_cases h : (ms != 0) = true
    · rw [if_pos h]
      refine ⟨rfl, rfl, ?_⟩
      rintro (h2 | h2)
      · cases h2
      · injection h2 with h3
        simp [h3] at h
    · rw [if_neg h]
      exact ⟨rfl, rfl, fun _ => rfl⟩

/-- Componentwise description of the share-settings update. -/
theorem applyShareSettingsBody_spec (b : ShareController.ShareSettingsBody) (now : Int)
    (ss : ShareSettings) :
    (ShareController.applyShareSettingsBody b now ss).shareId = ss.shareId ∧
    (ShareController.applyShareSettingsBody b now ss).isShared = ss.isShared ∧
    (ShareController.applyShareSettingsBody b now ss).sharePermissions
      = (match b.permissions with | some p => p | none => ss.sharePermissions) ∧
    (ShareController.applyShareSettingsBody b now ss).shareExpiresAt
      = (match b.expiresIn with
         | some none => none
         | some (some ms) => some (now + ms)
         | none => ss.shareExpiresAt) ∧
    (ShareController.applyShareSettingsBody b now ss).allowComments
      = (match b.allowComments with | some a => a | none => ss.allowComments) := by
  obtain ⟨p, e, a⟩ := b
  unfold ShareController.applyShareSettingsBody
  cases p <;> rcases e with _ | (_ | ms) <;> cases a <;> exact ⟨rfl, rfl, rfl, rfl, rfl⟩

/-- C8: creating a share link succeeds on any caller-owned live note and
yields the shared flag with the nonempty generated token stored; the
revoke method clears the flag, the token and the expiry; a settings update
succeeds exactly on a shared note, changes only the provided fields among
permissions, expiry and comment toggle and never changes the token; and
revoking a note that is not currently shared fails with the 400 error
(nothing is written). -/
theorem C8_shareLinkFields :
    (∀ (db : List Note) (userId noteId : String) (permissions : Option String)
       (expiresIn : Option Int) (r : List Nat) (now : Int) (note : Note),
      findOwnedNote db userId noteId = some note →
      ∃ n2, ShareController.createShareLink db userId noteId permissions expiresIn
          (generateShareId r) now = .ok n2 ∧
        n2.shareSettings.isShared = true ∧
        n2.shareSettings.shareId = some (generateShareId r) ∧
        generateShareId r ≠ "") ∧
    (∀ n : Note,
      (n.revokeShareLink).shareSettings.isShared = false ∧
      (n.revokeShareLink).shareSettings.shareId = none ∧
      (n.revokeShareLink).shareSettings.shareExpiresAt = none) ∧
    (∀ (db : List Note) (userId noteId : String) (body : ShareController.ShareSettingsBody)
       (now : Int) (note : Note),
      findOwnedNote db userId noteId = some note →
      note.shareSettings.isShared = true →
      ∃ n2, ShareController.updateShareSettings db userId noteId body now = .ok n2 ∧
        n2.shareSettings.shareId = note.shareSettings.shareId ∧
        n2.shareSettings.isShared = note.shareSettings.isShared ∧
        n2.shareSettings.sharePermissions
          = (match body.permissions with
             | some p => p
             | none => note.shareSettings.sharePermissions) ∧
        n2.shareSettings.shareExpiresAt
          = (match body.expiresIn with
             | some none => none
             | some (some ms) => some (now + ms)
             | none => note.shareSettings.shareExpiresAt) ∧
        n2.shareSettings.allowComments
          = (match body.allowComments with
             | some a => a
             | none => note.shareSettings.allowComments)) ∧
    (∀ (db : List Note) (userId noteId : String) (note : Note),
      findOwnedNote db userId noteId = some note →
      note.shareSettings.isShared = false →
      ShareController.revokeShareLink db userId noteId
        = .error { message := "Note is not currently shared", statusCode := 400 }) := by
  refine ⟨?_, ?_, ?_, ?_⟩
  · intro db userId noteId permissions expiresIn r now note hnote
    unfold ShareController.createShareLink
    rw [hnote]
    dsimp only
    exact ⟨_, rfl,
      (createShareLink_method note (generateShareId r) (permissions.getD "view")
        expiresIn now).1,
      (createShareLink_method note (generateShareId r) (permissions.getD "view")
        expiresIn now).2.1,
      generateShareId_ne_empty r⟩
  · intro n
    exact ⟨rfl, rfl, rfl⟩
  · intro db userId noteId body now note hnote hsh
    unfold ShareController.updateShareSettings
    rw [hnote]
    dsimp only
    rw [if_neg (by simp [hsh])]
    refine ⟨_, rfl, ?_, ?_, ?_, ?_, ?_⟩
    · exact (applyShareSettingsBody_spec body now note.shareSettings).1
    · exact (applyShareSettingsBody_spec body now note.shareSettings).2.1
    · exact (applyShareSettingsBody_spec body now note.shareSettings).2.2.1
    · exact (applyShareSettingsBody_spec body now note.shareSettings).2.2.2.1
    · exact (applyShareSettingsBody_spec body now note.shareSettings).2.2.2.2
  · intro db userId noteId note hnote hsh
    unfold ShareController.revokeShareLink
    rw [hnote]
    dsimp only
    rw [if_pos (by simp [hsh])]

/-- Witness for C8: creating a link on the demo note stores the zero-byte
token; updating the permissions of the shared note keeps its token s1; and
revoking the unshared demo note fails with the 400 error. -/
theorem C8_witness :
    (∃ n2, ShareController.createShareLink [demoNote] "u1" "n1" none none
        (generateShareId []) 0 = .ok n2 ∧
      n2.shareSettings.isShared = true ∧
      n2.shareSettings.shareId = some (generateShareId []) ∧
      generateShareId [] ≠ "") ∧
    (∃ n2, ShareController.updateShareSettings [sharedNote] "u1" "n1"
        { permissions := some "edit" } 4 = .ok n2 ∧
      n2.shareSettings.shareId = sharedNote.shareSettings.shareId ∧
      n2.shareSettings.isShared = sharedNote.shareSettings.isShared ∧
      n2.shareSettings.sharePermissions = "edit" ∧
      n2.shareSettings.shareExpiresAt = sharedNote.shareSettings.shareExpiresAt ∧
      n2.shareSettings.allowComments = sharedNote.shareSettings.allowComments) ∧
    ShareController.revokeShareLink [demoNote] "u1" "n1"
      = .error { message := "Note is not currently shared", statusCode := 400 } := by
  refine ⟨?_, ?_, ?_⟩
  · exact C8_shareLinkFields.1 [demoNote] "u1" "n1" none none [] 0 demoNote (by decide)
  · exact C8_shareLinkFields.2.2.1 [sharedNote] "u1" "n1" { permissions := some "edit" } 4
      sharedNote (by decide) rfl
  · exact C8_shareLinkFields.2.2.2 [demoNote] "u1" "n1" demoNote (by decide) rfl

/-- C10: createShareLink on an already-shared note succeeds with no prior
revoke and overwrites the stored token with the fresh one (so the old
token no longer matches); and when the expiresIn argument is absent or
zero the previously stored expiry is left in place, so the new link
inherits the old expiry instead of having none. -/
theorem C10_reshare :
    (∀ (db : List Note) (userId noteId : String) (permissions : Option String)
       (expiresIn : Option Int) (token : String) (now : Int) (note : Note),
      findOwnedNote db userId noteId = some note →
      note.shareSettings.isShared = true →
      ∃ n2, ShareController.createShareLink db userId noteId permissions expiresIn
          token now = .ok n2 ∧
        n2.shareSettings.shareId = some token ∧
        (∀ old, note.shareSettings.shareId = some old → old ≠ token →
          n2.shareSettings.shareId ≠ some old)) ∧
    (∀ (db : List Note) (userId noteId : String) (permissions : Option String)
       (expiresIn : Option Int) (token : String) (now : Int) (note : Note),
      findOwnedNote db userId noteId = some note →
      (expiresIn = none ∨ expiresIn = some 0) →
      ∃ n2, ShareController.createShareLink db userId noteId permissions expiresIn
          token now = .ok n2 ∧
        n2.shareSettings.shareExpiresAt = note.shareSettings.shareExpiresAt) := by
  constructor
  · intro db userId noteId permissions expiresIn token now note hnote _hsh
    unfold ShareController.createShareLink
    rw [hnote]
    dsimp only
    refine ⟨_, rfl,
      (createShareLink_method note token (permissions.getD "view") expiresIn now).2.1, ?_⟩
    intro old _hold hne
    rw [(createShareLink_method note token (permissions.getD "view") expiresIn now).2.1]
    simp [hne.symm]
  · intro db userId noteId permissions expiresIn token now note hnote hfalsy
    unfold ShareController.createShareLink
    rw [hnote]
    dsimp only
    exact ⟨_, rfl,
      (createShareLink_method note token (permissions.getD "view") expiresIn now).2.2 hfalsy⟩

/-- Witness for C10: re-sharing the already-shared note with expiry 10 and
no expiresIn argument replaces token s2 by tok2 and keeps the stored
expiry 10. -/
theorem C10_witness :
    (∃ n2, ShareController.createShareLink [expiredNote] "u1" "n1" none none "tok2" 50
        = .ok n2 ∧
      n2.shareSettings.shareId = some "tok2" ∧
      (∀ old, expiredNote.shareSettings.shareId = some old → old ≠ "tok2" →
        n2.shareSettings.shareId ≠ some old)) ∧
    (∃ n2, ShareController.createShareLink [expiredNote] "u1" "n1" none none "tok2" 50
        = .ok n2 ∧
      n2.shareSettings.shareExpiresAt = expiredNote.shareSettings.shareExpiresAt) :=
  ⟨C10_reshare.1 [expiredNote] "u1" "n1" none none "tok2" 50 expiredNote
     (by decide) rfl,
   C10_reshare.2 [expiredNote] "u1" "n1" none none "tok2" 50 expiredNote
     (by decide) (Or.inl rfl)⟩

/-- On a singleton store the owner-scoped lookup can only return that
note. -/
theorem findOwnedNote_singleton {n m : Note} {u i : String}
    (h : findOwnedNote [n] u i = some m) : m = n := by
  have := List.mem_of_find?_eq_some h
  simpa using this

/-- The collaborator-adding method never touches the share settings. -/
theorem addCollaborator_shareSettings (n : Note) (uid perm : String) (now : Int) :
    (n.addCollaborator uid perm now).shareSettings = n.shareSettings := by
  unfold Note.addCollaborator
  split <;> rfl

/-- One subsystem operation preserves the token-iff-shared invariant. -/
theorem applyOp_shareInv (n : Note) (op : SubsystemOp) (h : shareInv n) :
    shareInv (applyOp n op) := by
  cases op with
  | createLink token permissions expiresIn now =>
    simp only [applyOp]
    cases hr : ShareController.createShareLink [n] n.author n.id permissions expiresIn
        token now with
    | error e => exact h
    | ok m =>
      show shareInv m
      unfold ShareController.createShareLink at hr
      cases hf : findOwnedNote [n] n.author n.id with
      | none => rw [hf] at hr; exact absurd hr (by simp)
      | some note0 =>
        rw [hf] at hr
        dsimp only at hr
        injection hr with hm
        unfold shareInv
        rw [← hm,
            (createShareLink_method note0 token (permissions.getD "view") expiresIn now).1,
            (createShareLink_method note0 token (permissions.getD "view") expiresIn now).2.1]
        rfl
  | revokeLink =>
    simp only [applyOp]
    cases hr : ShareController.revokeShareLink [n] n.author n.id with
    | error e => exact h
    | ok m =>
      show shareInv m
      unfold ShareController.revokeShareLink at hr
      cases hf : findOwnedNote [n] n.author n.id with
      | none => rw [hf] at hr; exact absurd hr (by simp)
      | some note0 =>
        rw [hf] at hr
        dsimp only at hr
        by_cases hsh : (!note0.shareSettings.isShared) = true
        · rw [if_pos hsh] at hr; exact absurd hr (by simp)
        · rw [if_neg hsh] at hr
          injection hr with hm
          unfold shareInv
          rw [← hm]
          rfl
  | updateSettings body now =>
    simp only [applyOp]
    cases hr : ShareController.updateShareSettings [n] n.author n.id body now with
    | error e => exact h
    | ok m =>
      show shareInv m
      unfold ShareController.updateShareSettings at hr
      cases hf : findOwnedNote [n] n.author n.id with
      | none => rw [hf] at hr; exact absurd hr (by simp)
      | some note0 =>
        have hn0 := findOwnedNote_singleton hf
        subst hn0
        rw [hf] at hr
        dsimp only at hr
        by_cases hsh : (!note0.shareSettings.isShared) = true
        · rw [if_pos hsh] at hr; exact absurd hr (by simp)
        · rw [if_neg hsh] at hr
          injection hr with hm
          unfold shareInv
          rw [← hm, save_shareSettings]
          show (ShareController.applyShareSettingsBody body now
            note0.shareSettings).shareId.isSome = _
          rw [(applyShareSettingsBody_spec body now note0.shareSettings).1,
              (applyShareSettingsBody_spec body now note0.shareSettings).2.1]
          exact h
  | contentUpdate body now =>
    simp only [applyOp]
    unfold shareInv
    rw [updateNote_shareSettings]
    exact h
  | addCollab uid p now =>
    simp only [applyOp]
    unfold shareInv
    rw [addCollaborator_shareSettings]
    exact h
  | updateCollabPerm uid p =>
    simp only [applyOp]
    cases hr : ShareController.updateCollaboratorPermission [n] n.author n.id uid p with
    | error e => exact h
    | ok m =>
      show shareInv m
      unfold ShareController.updateCollaboratorPermission at hr
      cases hf : findOwnedNote [n] n.author n.id with
      | none => rw [hf] at hr; exact absurd hr (by simp)
      | some note0 =>
        have hn0 := findOwnedNote_singleton hf
        subst hn0
        rw [hf] at hr
        dsimp only at hr
        by_cases hcf : (note0.collaborators.find? (fun c => c.user == uid)).isSome = true
        · rw [if_pos hcf] at hr
          injection hr with hm
          unfold shareInv
          rw [← hm, save_shareSettings]
          exact h
        · rw [if_neg hcf] at hr
          exact absurd hr (by simp)
  | removeCollab uid => exact h
  | softDel now => exact h
  | restoreNote => exact h
  | view now => exact h

/-- Sequences of subsystem operations preserve the invariant. -/
theorem applyOps_shareInv (ops : List SubsystemOp) :
    ∀ n, shareInv n → shareInv (applyOps ops n) := by
  induction ops with
  | nil => intro n h; exact h
  | cons op rest ih =>
    intro n h
    exact ih (applyOp n op) (applyOp_shareInv n op h)

/-- C3: on every note satisfying it, the invariant that the share token is
present exactly when the shared flag is set is preserved by every sequence
of subsystem operations (share link create, revoke and settings update,
content and metadata updates, collaborator operations, soft delete and
restore, shared views); the revoke method clears both fields; and a
freshly created note satisfies the invariant. -/
theorem C3_shareIdInvariant :
    (∀ (n : Note) (ops : List SubsystemOp), shareInv n → shareInv (applyOps ops n)) ∧
    (∀ n : Note, (n.revokeShareLink).shareSettings.shareId = none ∧
      (n.revokeShareLink).shareSettings.isShared = false) ∧
    (∀ (id title content author : String) (tags : List String),
      shareInv (NoteController.createNote id title content author tags)) :=
  ⟨fun n ops h => applyOps_shareInv ops n h, fun _ => ⟨rfl, rfl⟩,
   fun _ _ _ _ _ => rfl⟩

/-- Witness for C3: the invariant holds on the demo note and is preserved
across a share, a soft delete, a revoke attempt and a view. -/
theorem C3_witness :
    shareInv demoNote ∧
    shareInv (applyOps [SubsystemOp.createLink "tok" none none 1, SubsystemOp.softDel 2,
      SubsystemOp.revokeLink, SubsystemOp.view 3] demoNote) :=
  ⟨rfl, C3_shareIdInvariant.1 demoNote
    [SubsystemOp.createLink "tok" none none 1, SubsystemOp.softDel 2,
     SubsystemOp.revokeLink, SubsystemOp.view 3] rfl⟩

attribute [ext] Note

/-- Excerpt stability of the pre-save hook on a consistent document. -/
theorem preSave_excerpt_stable (n : Note) (h1 : n.excerpt = "" → n.content = "") :
    (preSave n).excerpt = n.excerpt := by
  simp only [preSave]
  by_cases he : n.excerpt = ""
  · rw [if_neg (by simp [he, h1 he])]
  · rw [if_neg (by simp [he])]

/-- Word-count stability of the pre-save hook on a consistent document. -/
theorem preSave_wordCount_stable (n : Note)
    (h : n.content ≠ "" → n.wordCount = (wordsOf (stripHtml n.content).toList).length) :
    (preSave n).wordCount = n.wordCount := by
  simp only [preSave]
  by_cases hc : n.content = ""
  · rw [if_neg (by simp [hc])]
  · rw [if_pos (by simp [hc])]
    exact (h hc).symm

/-- Reading-time stability of the pre-save hook on a consistent document. -/
theorem preSave_readingTime_stable (n : Note)
    (h : n.content ≠ "" →
      n.readingTime = ((wordsOf (stripHtml n.content).toList).length + 199) / 200) :
    (preSave n).readingTime = n.readingTime := by
  simp only [preSave]
  by_cases hc : n.content = ""
  · rw [if_neg (by simp [hc])]
  · rw [if_pos (by simp [hc])]
    exact (h hc).symm

/-- A save of a document with no modified paths and consistent derived
fields writes back exactly the same document. -/
theorem save_stable_id (n : Note) (hmt : n.modifiedTitle = false)
    (hmc : n.modifiedContent = false) (hnew : n.isNew = false)
    (hs : saveStable n) : save n = n := by
  obtain ⟨h1, h2⟩ := hs
  have hps : preSave n = n := by
    apply Note.ext
    case excerpt => exact preSave_excerpt_stable n h1
    case wordCount => exact preSave_wordCount_stable n (fun hc => (h2 hc).1)
    case readingTime => exact preSave_readingTime_stable n (fun hc => (h2 hc).2)
    case searchKeywords =>
      simp only [preSave]
      rw [if_neg (by simp [hmt, hmc])]
    case version =>
      simp only [preSave]
      rw [if_neg (by simp [hmc])]
    case editCount =>
      simp only [preSave]
      rw [if_neg (by simp [hmc])]
    all_goals rfl
  simp only [save]
  rw [hps]
  apply Note.ext
  case modifiedTitle => exact hmt.symm
  case modifiedContent => exact hmc.symm
  case isNew => exact hnew.symm
  all_goals rfl

/-- Pointwise description of one tag-usage decrement on the counters. -/
theorem tagCounts_dec (a : String) (ts : List Tag) :
    tagCounts (decTagUsage ts a)
      = (tagCounts ts).map (fun p => if p.1 = a then (p.1, p.2 - 1) else p) := by
  unfold tagCounts decTagUsage
  rw [List.map_map, List.map_map]
  apply List.map_congr_left
  intro t _
  by_cases h : t.id = a <;> simp [h]

/-- Pointwise description of one tag-usage increment on the counters. -/
theorem tagCounts_inc (now : Int) (a : String) (ts : List Tag) :
    tagCounts (incTagUsage now ts a)
      = (tagCounts ts).map (fun p => if p.1 = a then (p.1, p.2 + 1) else p) := by
  unfold tagCounts incTagUsage
  rw [List.map_map, List.map_map]
  apply List.map_congr_left
  intro t _
  by_cases h : t.id = a <;> simp [h]

/-- Folded decrements subtract the reference multiplicity per tag. -/
theorem foldl_dec_tagCounts (l : List String) (ts : List Tag) :
    tagCounts (l.foldl decTagUsage ts)
      = (tagCounts ts).map (fun p => (p.1, p.2 - (l.count p.1 : Int))) := by
  induction l generalizing ts with
  | nil => simp
  | cons a l ih =>
    rw [List.foldl_cons, ih, tagCounts_dec, List.map_map]
    apply List.map_congr_left
    intro p _
    by_cases h : p.1 = a
    · simp only [Function.comp, h, List.count_cons, Prod.mk.injEq, if_pos rfl]
      refine ⟨rfl, ?_⟩
      simp
      omega
    · simp [Function.comp, h, List.count_cons, Prod.mk.injEq]

/-- Folded increments add the reference multiplicity per tag. -/
theorem foldl_inc_tagCounts (now : Int) (l : List String) (ts : List Tag) :
    tagCounts (l.foldl (incTagUsage now) ts)
      = (tagCounts ts).map (fun p => (p.1, p.2 + (l.count p.1 : Int))) := by
  induction l generalizing ts with
  | nil => simp
  | cons a l ih =>
    rw [List.foldl_cons, ih, tagCounts_inc, List.map_map]
    apply List.map_congr_left
    intro p _
    by_cases h : p.1 = a
    · simp only [Function.comp, h, List.count_cons, Prod.mk.injEq, if_pos rfl]
      refine ⟨rfl, ?_⟩
      simp
      omega
    · simp [Function.comp, h, List.count_cons, Prod.mk.injEq]

/-- The delete-time decrements are exactly undone by the restore-time
increments over the same tag references. -/
theorem tag_roundtrip (l : List String) (now : Int) (ts : List Tag) :
    tagCounts (l.foldl (incTagUsage now) (l.foldl decTagUsage ts)) = tagCounts ts := by
  rw [foldl_inc_tagCounts, foldl_dec_tagCounts, List.map_map]
  conv_rhs => rw [← List.map_id (tagCounts ts)]
  apply List.map_congr_left
  intro p _
  simp [Function.comp]

/-- C9: soft-deleting an active note through the delete route and then
restoring it through the restore route returns the note to exactly its
pre-delete field state (isDeleted back to false, deletedAt back to null,
all other fields untouched), and every tag usage counter returns to its
pre-delete value: the delete-time decrement is exactly paired with the
restore-time increment. Stated for persisted documents: no modified
paths, not new, and derived fields consistent with the content. -/
theorem C9_deleteRestore :
    ∀ (n : Note) (tags : List Tag) (t1 t2 : Int),
      n.isDeleted = false → n.deletedAt = none →
      n.modifiedTitle = false → n.modifiedContent = false → n.isNew = false →
      saveStable n →
      (NoteController.restoreNote (NoteController.deleteNote n tags t1).1
          (NoteController.deleteNote n tags t1).2 t2).1 = n ∧
      tagCounts (NoteController.restoreNote (NoteController.deleteNote n tags t1).1
          (NoteController.deleteNote n tags t1).2 t2).2 = tagCounts tags := by
  intro n tags t1 t2 hdel hda hmt hmc hnew hs
  have hd1 : n.softDelete t1 = { n with isDeleted := true, deletedAt := some t1 } := by
    unfold Note.softDelete
    exact save_stable_id _ hmt hmc hnew hs
  have hr1 : ({ n with isDeleted := true, deletedAt := some t1 } : Note).restore
      = { n with isDeleted := false, deletedAt := none } := by
    unfold Note.restore
    exact save_stable_id _ hmt hmc hnew hs
  have hback : ({ n with isDeleted := false, deletedAt := none } : Note) = n := by
    apply Note.ext
    case isDeleted => exact hdel.symm
    case deletedAt => exact hda.symm
    all_goals rfl
  constructor
  · show ((n.softDelete t1).restore) = n
    rw [hd1, hr1, hback]
  · show tagCounts (((n.softDelete t1).restore).tags.foldl (incTagUsage t2)
      ((n.softDelete t1).tags.foldl decTagUsage tags)) = tagCounts tags
    rw [hd1, hr1, hback]
    exact tag_roundtrip n.tags t2 tags

/-- Witness for C9: deleting and restoring the demo note over the demo tag
store restores the note and the usage counters. -/
theorem C9_witness :
    (NoteController.restoreNote (NoteController.deleteNote demoNote demoTags 11).1
        (NoteController.deleteNote demoNote demoTags 11).2 22).1 = demoNote ∧
    tagCounts (NoteController.restoreNote (NoteController.deleteNote demoNote demoTags 11).1
        (NoteController.deleteNote demoNote demoTags 11).2 22).2 = tagCounts demoTags :=
  C9_deleteRestore demoNote demoTags 11 22 rfl rfl rfl rfl rfl
    (by constructor <;> decide)

end NotesApp
